import Mathlib

/-!
Shallow embedding of the Hydrological Signal Analysis Engine
(floml: precursors.py, correlation.py, regression.py).

Modelling conventions:
- Python floats are modelled as exact rationals; a possibly-NaN float is
  modelled as an Option value (none = NaN).
- A pandas Series on a fixed hourly (resp. daily) grid is modelled as a
  List of values indexed by grid position from a common origin; the
  timestamp of index i is i hours (resp. days).  For a dense series on
  that grid, resample plus mean aggregation plus interpolation is the
  identity, so the detectors are embedded directly over the gridded list.
- External numerical back ends (scipy stats routines, the pwlf optimizer)
  are abstracted as parameters, mirroring the narrow-interface design of
  the source; everything the repository itself computes is embedded.
-/

set_option allowUnsafeReducibility true
attribute [semireducible] Rat.mul Rat.inv Rat.add Rat.sub Rat.div Rat.neg Rat.normalize Rat.maybeNormalize

/-- Python max over a list, returning d when the list is empty
(models max(xs) on non-empty xs and max(xs, default=d)). -/
def pyMax (l : List ℚ) (d : ℚ) : ℚ :=
  match l with
  | [] => d
  | h :: t => t.foldl max h

/-- Python min over a list, returning d when the list is empty. -/
def pyMin (l : List ℚ) (d : ℚ) : ℚ :=
  match l with
  | [] => d
  | h :: t => t.foldl min h

/-- pandas Series.max: NaN entries are skipped; empty result defaults to 0
(only reached in contexts where a finite value is present). -/
def pyMaxOpt (l : List (Option ℚ)) : ℚ :=
  pyMax (l.filterMap id) 0

/-- precursors.PrecursorEvent (the description string, a pure formatting
artifact built with float format specifiers, is not carried). -/
structure PrecursorEvent where
  precursor_type : String
  detected_at : ℤ
  value : ℚ
  severity : String
  hours_before_peak : ℚ
  deriving DecidableEq

/-- precursors.calculate_rise_rate on a dense hourly series:
diff over window_hours periods scaled by 24/window_hours; the leading
window_hours points have no prior value and are NaN. -/
def calculate_rise_rate (stage : List ℚ) (window_hours : ℕ) : List (Option ℚ) :=
  (List.range stage.length).map (fun i =>
    if i < window_hours then none
    else some ((stage.getD i 0 - stage.getD (i - window_hours) 0) * (24 / (window_hours : ℚ))))

/-- The boolean mask rise_rate > threshold; NaN compares False. -/
def rapidMask (rate : List (Option ℚ)) (thr : ℚ) : List Bool :=
  rate.map (fun r =>
    match r with
    | none => false
    | some v => decide (v > thr))

/-- pandas label slice rise_rate[event_start:timestamp].max(): label-based
slicing includes both endpoints, so indices s .. t inclusive. -/
def sliceMaxQ (rate : List (Option ℚ)) (s t : ℕ) : ℚ :=
  pyMaxOpt ((rate.drop s).take (t - s + 1))

/-- The event record appended by detect_rapid_rise when a run closes
(run start s, closing below-threshold sample at index t). -/
def mkRapidEvent (rate : List (Option ℚ)) (s t : ℕ) : PrecursorEvent :=
  { precursor_type := "rapid_rise"
    detected_at := (s : ℤ)
    value := sliceMaxQ rate s t
    severity :=
      if sliceMaxQ rate s t > 2 then "major"
      else if sliceMaxQ rate s t > 1 then "moderate"
      else "minor"
    hours_before_peak := 0 }

/-- The two-state scan of detect_rapid_rise over the boolean mask:
OUTSIDE (none) / INSIDE (some event_start); an event is appended on the
INSIDE to OUTSIDE transition when the duration reaches min_duration_hours;
a run still open when the list ends is dropped. -/
def rapidLoopGo (rate : List (Option ℚ)) (thr : ℚ) (minDur : ℕ) :
    List Bool → ℕ → Option ℕ → List PrecursorEvent
  | [], _, _ => []
  | true :: rest, i, none => rapidLoopGo rate thr minDur rest (i + 1) (some i)
  | false :: rest, i, none => rapidLoopGo rate thr minDur rest (i + 1) none
  | true :: rest, i, some s => rapidLoopGo rate thr minDur rest (i + 1) (some s)
  | false :: rest, i, some s =>
      if minDur ≤ i - s then
        mkRapidEvent rate s i :: rapidLoopGo rate thr minDur rest (i + 1) none
      else
        rapidLoopGo rate thr minDur rest (i + 1) none

/-- precursors.detect_rapid_rise on a dense hourly series (the rise-rate
window is fixed at 6 hours in the source). -/
def detect_rapid_rise (stage : List ℚ) (threshold_ft_per_day : ℚ)
    (min_duration_hours : ℕ) : List PrecursorEvent :=
  rapidLoopGo (calculate_rise_rate stage 6) threshold_ft_per_day min_duration_hours
    (rapidMask (calculate_rise_rate stage 6) threshold_ft_per_day) 0 none

example :
    detect_rapid_rise [0, 0, 0, 0, 0, 0, 1, 1, 1, 0, 0, 0] 1 3 =
      [{ precursor_type := "rapid_rise", detected_at := 6, value := 4,
         severity := "major", hours_before_peak := 0 }] := by decide

example : detect_rapid_rise [0, 0, 0, 0, 0, 0, 1, 1, 1, 0, 0, 0] 1 4 = [] := by decide

example : detect_rapid_rise [0, 0, 0, 0, 0, 0, 1, 1, 1] 1 3 = [] := by decide

/-- The rolling full window ending at day i: pandas rolling(window_days)
looks back over days i - window_days + 1 .. i. -/
def rollingWindow (s : List ℚ) (w i : ℕ) : List ℚ :=
  (s.drop (i + 1 - w)).take w

/-- rolling max minus rolling min over full windows only
(min_periods = window_days): NaN until a full window is available. -/
def totalRise (s : List ℚ) (w : ℕ) : List (Option ℚ) :=
  (List.range s.length).map (fun i =>
    if i + 1 < w then none
    else some (pyMax (rollingWindow s w i) 0 - pyMin (rollingWindow s w i) 0))

/-- The boolean mask total_rise > threshold_ft; NaN compares False. -/
def sustainedFlags (s : List ℚ) (thr : ℚ) (w : ℕ) : List Bool :=
  (totalRise s w).map (fun o =>
    match o with
    | none => false
    | some v => decide (v > thr))

/-- The rising-edge mask sustained AND NOT sustained.shift(1, fill_value=False). -/
def startedFlags (flags : List Bool) : List Bool :=
  (List.range flags.length).map (fun i =>
    flags.getD i false && !(if i = 0 then false else flags.getD (i - 1) false))

/-- The event record built by detect_sustained_rise for trigger day d. -/
def mkSustainedEvent (tr : List (Option ℚ)) (d : ℕ) : PrecursorEvent :=
  { precursor_type := "sustained_rise"
    detected_at := (d : ℤ)
    value := (tr.getD d none).getD 0
    severity :=
      if (tr.getD d none).getD 0 > 6 then "major"
      else if (tr.getD d none).getD 0 > 4 then "moderate"
      else "minor"
    hours_before_peak := 0 }

/-- precursors.detect_sustained_rise on a dense daily series: one event per
day on which the threshold-exceedance mask rises from False to True. -/
def detect_sustained_rise (stage_daily : List ℚ) (threshold_ft : ℚ)
    (window_days : ℕ) : List PrecursorEvent :=
  ((List.range stage_daily.length).filter
      (fun i => (startedFlags (sustainedFlags stage_daily threshold_ft window_days)).getD i false)).map
    (mkSustainedEvent (totalRise stage_daily window_days))

/-- precursors.compute_precursor_metrics: the Python dict is modelled as an
association list of key-value pairs in insertion order. -/
def compute_precursor_metrics (events : List PrecursorEvent) : List (String × ℚ) :=
  if events.isEmpty then
    [("total_events", 0), ("earliest_warning_hours", 0),
     ("max_rise_rate", 0), ("major_events", 0)]
  else
    [("total_events", (events.length : ℚ)),
     ("earliest_warning_hours", pyMax (events.map (fun e => e.hours_before_peak)) 0),
     ("max_rise_rate",
       pyMax ((events.filter (fun e => e.precursor_type == "rapid_rise")).map (fun e => e.value)) 0),
     ("rapid_rise_events",
       ((events.filter (fun e => e.precursor_type == "rapid_rise")).length : ℚ)),
     ("sustained_rise_events",
       ((events.filter (fun e => e.precursor_type == "sustained_rise")).length : ℚ)),
     ("major_events", ((events.filter (fun e => e.severity == "major")).length : ℚ))]

example :
    detect_sustained_rise [0, 5, 5, 0, 0] 1 2 =
      [mkSustainedEvent (totalRise [0, 5, 5, 0, 0] 2) 1,
       mkSustainedEvent (totalRise [0, 5, 5, 0, 0] 2) 3] := by decide

example : (compute_precursor_metrics []).lookup "rapid_rise_events" = none := by decide

instance {ε α : Type} [DecidableEq ε] [DecidableEq α] : DecidableEq (Except ε α) := fun x y =>
  match x, y with
  | Except.error e, Except.error f => decidable_of_iff (e = f) (by simp)
  | Except.error _, Except.ok _ => Decidable.isFalse (by simp)
  | Except.ok _, Except.error _ => Decidable.isFalse (by simp)
  | Except.ok a, Except.ok b => decidable_of_iff (a = b) (by simp)

/-- numpy argmax over the values f 0 .. f (n-1): the scan keeps the current
best and replaces it only on a strictly larger value, so ties resolve to
the first maximizer; numpy raises on an empty array, so callers guard n = 0. -/
def argmaxFirst (f : ℕ → ℚ) (n : ℕ) : ℕ :=
  (List.range n).foldl (fun best i => if f i > f best then i else best) 0

/-- pandas mean of a list of values (empty lists are never taken here). -/
def listMean (l : List ℚ) : ℚ :=
  l.sum / (l.length : ℚ)

/-- Inner join of two series on the common hourly grid, dropping rows where
either side is NaN (DataFrame plus dropna; rows outside either series
range carry NaN on the other side and are likewise dropped). -/
def hourlyJoin (up down : List (Option ℚ)) : List (ℚ × ℚ) :=
  (List.zip up down).filterMap (fun p =>
    match p with
    | (some a, some b) => some (a, b)
    | _ => none)

/-- Upstream column of the joined frame. -/
def joinedUp (up down : List (Option ℚ)) : List ℚ :=
  (hourlyJoin up down).map (fun p => p.1)

/-- Downstream column of the joined frame. -/
def joinedDown (up down : List (Option ℚ)) : List ℚ :=
  (hourlyJoin up down).map (fun p => p.2)

/-- Mean-centered upstream column. -/
def centeredUp (up down : List (Option ℚ)) : List ℚ :=
  (joinedUp up down).map (fun v => v - listMean (joinedUp up down))

/-- Mean-centered downstream column. -/
def centeredDown (up down : List (Option ℚ)) : List ℚ :=
  (joinedDown up down).map (fun v => v - listMean (joinedDown up down))

/-- Cross-correlation of a against v at signed offset lag: the sum of
a j * v (j - lag) over the indices where both are in range.  In
scipy.signal.correlate(a, v, mode same) of two length-n arrays, slice
position center + d holds exactly this value at lag d, center = n / 2. -/
def ccSame (a v : List ℚ) (lag : ℤ) : ℚ :=
  ((List.range a.length).map (fun (j : ℕ) =>
    if 0 ≤ (j : ℤ) - lag ∧ (j : ℤ) - lag < (v.length : ℤ) then
      a.getD j 0 * v.getD ((j : ℤ) - lag).toNat 0
    else 0)).sum

/-- Error conditions of the correlation module: the ValueError raised on
too few aligned pairs, and the numpy ValueError raised by argmax of the
empty search slice. -/
inductive CorrError where
  | insufficientData (n : ℕ) : CorrError
  | emptyArgmax : CorrError
  deriving DecidableEq

/-- correlation.find_optimal_lag: resample both series hourly, inner-join
and dropna, mean-center, cross-correlate (mode same), then take the argmax
of the slice center - m .. center + m - 1 and shift it by -m, where
m = min(max_lag_hours, center) and center = n / 2.  The slice upper bound
is exclusive, so offset +m is never searched. -/
def find_optimal_lag (up down : List (Option ℚ)) (max_lag_hours : ℕ) :
    Except CorrError ℤ :=
  if 2 * min max_lag_hours ((hourlyJoin up down).length / 2) = 0 then
    Except.error CorrError.emptyArgmax
  else
    Except.ok
      ((argmaxFirst
          (fun i => ccSame (centeredDown up down) (centeredUp up down)
            ((i : ℤ) - ((min max_lag_hours ((hourlyJoin up down).length / 2) : ℕ) : ℤ)))
          (2 * min max_lag_hours ((hourlyJoin up down).length / 2)) : ℤ)
        - ((min max_lag_hours ((hourlyJoin up down).length / 2) : ℕ) : ℤ))

/-- correlation.CorrelationResult. -/
structure CorrelationResult where
  pearson_r : ℚ
  p_value : ℚ
  lag_hours : ℤ
  r_squared : ℚ
  slope : ℚ
  intercept : ℚ
  sample_size : ℕ
  deriving DecidableEq

/-- The scipy statistical back end (stats.pearsonr and stats.linregress
return irrational reals in general); abstracted as functions from the
aligned pairs, mirroring the narrow-interface design note of the spec.
pearsonr gives (r, p); linregress gives (slope, intercept, r_value). -/
structure StatsBackend where
  pearsonr : List (ℚ × ℚ) → ℚ × ℚ
  linregress : List (ℚ × ℚ) → ℚ × ℚ × ℚ

/-- Indexing a gridded series at a signed position: NaN outside range. -/
def getZopt (l : List (Option ℚ)) (z : ℤ) : Option ℚ :=
  if 0 ≤ z ∧ z < (l.length : ℤ) then l.getD z.toNat none else none

/-- The aligned pairs after shifting downstream back in time by lag hours
(shift with freq -lag moves the value at time s to s - lag) and inner
joining with dropna: pairs (up t, down (t + lag)) where both exist. -/
def alignedPairs (up down : List (Option ℚ)) (lag : ℤ) : List (ℚ × ℚ) :=
  (List.range up.length).filterMap (fun t =>
    match up.getD t none, getZopt down ((t : ℤ) + lag) with
    | some a, some b => some (a, b)
    | _, _ => none)

/-- Lag resolution at the head of correlate_stations: an explicit lag wins;
otherwise auto-detection runs find_optimal_lag with its default radius 48;
otherwise the lag is 0. -/
def resolveLag (up down : List (Option ℚ)) (lag_hours : Option ℤ)
    (auto_detect_lag : Bool) : Except CorrError ℤ :=
  match lag_hours with
  | some l => Except.ok l
  | none => if auto_detect_lag then find_optimal_lag up down 48 else Except.ok 0

/-- correlation.correlate_stations: resolve the lag, shift and align, fail
with the insufficient-data ValueError under 10 aligned pairs, otherwise
package the back-end statistics with sample_size = number of pairs. -/
def correlate_stations (B : StatsBackend) (up down : List (Option ℚ))
    (lag_hours : Option ℤ) (auto_detect_lag : Bool) :
    Except CorrError CorrelationResult :=
  match resolveLag up down lag_hours auto_detect_lag with
  | Except.error e => Except.error e
  | Except.ok l =>
      if (alignedPairs up down l).length < 10 then
        Except.error (CorrError.insufficientData (alignedPairs up down l).length)
      else
        Except.ok
          { pearson_r := (B.pearsonr (alignedPairs up down l)).1
            p_value := (B.pearsonr (alignedPairs up down l)).2
            lag_hours := l
            r_squared := (B.linregress (alignedPairs up down l)).2.2 ^ 2
            slope := (B.linregress (alignedPairs up down l)).1
            intercept := (B.linregress (alignedPairs up down l)).2.1
            sample_size := (alignedPairs up down l).length }

example :
    find_optimal_lag [some 0, some 0, some 1, some 0] [some 0, some 0, some 0, some 1] 1 =
      Except.ok (-1) := by decide

example :
    ccSame (centeredDown [some 0, some 0, some 1, some 0] [some 0, some 0, some 0, some 1])
        (centeredUp [some 0, some 0, some 1, some 0] [some 0, some 0, some 0, some 1]) 1 =
      11 / 16 := by decide

/-- regression.RegressionResult (numpy arrays as rational lists). -/
structure RegressionResult where
  breakpoints : List ℚ
  slopes : List ℚ
  intercepts : List ℚ
  r_squared : ℚ
  rmse : ℚ
  n_segments : ℕ
  deriving DecidableEq

/-- The boolean mask selecting segment i in RegressionResult.predict:
the first branch (i = 0) has no lower bound, the last (i = n_segments - 1)
no upper bound, and the branches are tested in that order. -/
def segMask (r : RegressionResult) (i : ℕ) (xv : ℚ) : Bool :=
  if i = 0 then decide (xv ≤ r.breakpoints.getD 1 0)
  else if i = r.n_segments - 1 then decide (xv > r.breakpoints.getD i 0)
  else decide (xv > r.breakpoints.getD i 0) && decide (xv ≤ r.breakpoints.getD (i + 1) 0)

/-- RegressionResult.predict: y_pred starts as zeros and each segment in
turn overwrites the entries its mask selects. -/
def RegressionResult.predict (r : RegressionResult) (x : List ℚ) : List ℚ :=
  (List.range r.n_segments).foldl
    (fun ypred i =>
      List.zipWith
        (fun xv yv => if segMask r i xv then r.slopes.getD i 0 * xv + r.intercepts.getD i 0 else yv)
        x ypred)
    (x.map (fun _ => 0))

/-- Validation failures of fit_segmented_regression (both raised as
ValueError; the pwlf ImportError precedes them and is modelled as the
package being present). -/
inductive FitError where
  | lengthMismatch : FitError
  | tooFewPoints : FitError
  deriving DecidableEq

/-- The NaN-dropping step: keep the pairs where both entries are finite. -/
def dropNaN (x y : List (Option ℚ)) : List (ℚ × ℚ) :=
  (List.zip x y).filterMap (fun p =>
    match p with
    | (some a, some b) => some (a, b)
    | _ => none)

/-- The validation prefix of regression.fit_segmented_regression: the
length checks run on the raw flattened arrays, and only afterwards are
NaN rows removed and the cleaned pairs handed to the pwlf solver. -/
def fit_segmented_regression_validate (x y : List (Option ℚ)) (n_segments : ℕ) :
    Except FitError (List (ℚ × ℚ)) :=
  if x.length ≠ y.length then Except.error FitError.lengthMismatch
  else if x.length < n_segments + 1 then Except.error FitError.tooFewPoints
  else Except.ok (dropNaN x y)

/-- numpy argmax of a boolean array: index of the first True, and 0 when
every entry is False. -/
def np_argmax_bool (l : List Bool) : ℕ :=
  match l.findIdx? id with
  | some i => i
  | none => 0

/-- regression.find_optimal_segments: the per-count models come from the
external pwlf optimizer, so their R-squared values enter as an abstract
function r2 of the segment count; the elbow selection itself is embedded
verbatim, including the dead fallback branch optimal == 0. -/
def find_optimal_segments (r2 : ℕ → ℚ) (max_segments : ℕ) : ℕ :=
  if (np_argmax_bool
        (((List.range (max_segments - 1)).map (fun i => r2 (i + 2) - r2 (i + 1))).map
          (fun d => decide (d < 1 / 100))) + 1) = 0 then
    max_segments
  else
    np_argmax_bool
      (((List.range (max_segments - 1)).map (fun i => r2 (i + 2) - r2 (i + 1))).map
        (fun d => decide (d < 1 / 100))) + 1

example : fit_segmented_regression_validate [some 1, none, none] [some 1, none, none] 2 =
    Except.ok [(1, 1)] := by decide

example : find_optimal_segments (fun n => (3 * n : ℚ) / 10) 3 = 1 := by decide

example : find_optimal_segments (fun n => if n ≤ 2 then (n : ℚ) / 10 else 1 / 5) 5 = 2 := by decide

/-! ## General helper lemmas -/

lemma getD_map_range {α : Type} (f : ℕ → α) {n i : ℕ} (d : α) (h : i < n) :
    ((List.range n).map f).getD i d = f i := by
  rw [List.getD_eq_getElem _ _ (by simpa using h)]
  simp

lemma getD_map_range_ge {α : Type} (f : ℕ → α) {n i : ℕ} (d : α) (h : n ≤ i) :
    ((List.range n).map f).getD i d = d := by
  rw [List.getD_eq_default _ _ (by simpa using h)]

lemma zipWith_map_right_self {α β : Type} (x : List α) (f : α → β → β) (g : α → β) :
    List.zipWith f x (x.map g) = x.map (fun a => f a (g a)) := by
  induction x with
  | nil => rfl
  | cons h t ih => simp [ih]

/-! ## Claim C1 -/

/-- R-squared values 0.3, 0.6, 0.9 for 1..3 segments: every successive
improvement is 0.3, far above the 0.01 elbow threshold. -/
def r2AllSignificant : ℕ → ℚ := fun n => (3 * n : ℚ) / 10

/-- Claim C1: find_optimal_segments in the all-improvements-significant
case.  The claim (and the comment in the source next to the optimal == 0
fallback) say max_segments should be returned, but numpy argmax of an
all-False array is 0, so optimal = 0 + 1 = 1: the fallback is dead code
and the function returns 1 instead of max_segments = 3. -/
theorem find_optimal_segments_all_significant_returns_one :
    find_optimal_segments r2AllSignificant 3 = 1 ∧
    (1 / 100 : ℚ) ≤ r2AllSignificant 2 - r2AllSignificant 1 ∧
    (1 / 100 : ℚ) ≤ r2AllSignificant 3 - r2AllSignificant 2 := by decide

/-! ## Claim C2 -/

/-- Claim C2 counterexample: three raw points with only one finite pair
pass validation for n_segments = 2 although fewer than n_segments + 1
finite pairs remain after dropping NaN rows, because the point-count check
runs on the raw length before the NaN rows are dropped. -/
theorem fit_validate_counterexample :
    fit_segmented_regression_validate [some 1, none, none] [some 1, none, none] 2 =
      Except.ok [(1, 1)] ∧
    (dropNaN [some 1, none, none] [some 1, none, none]).length < 2 + 1 := by decide

/-- Claim C2 (amended): fit_segmented_regression validates equal lengths
and that the raw, pre-cleaning length is at least n_segments + 1, raising
ValueError synchronously before any fitting; NaN rows are dropped only
after these checks, so fewer than n_segments + 1 finite pairs may reach
the solver. -/
theorem fit_validate_spec (x y : List (Option ℚ)) (n : ℕ) :
    (fit_segmented_regression_validate x y n = Except.error FitError.lengthMismatch ↔
      x.length ≠ y.length) ∧
    (fit_segmented_regression_validate x y n = Except.error FitError.tooFewPoints ↔
      (x.length = y.length ∧ x.length < n + 1)) ∧
    (x.length = y.length → n + 1 ≤ x.length →
      fit_segmented_regression_validate x y n = Except.ok (dropNaN x y)) := by
  unfold fit_segmented_regression_validate
  split_ifs with h1 h2 <;> simp_all

/-- Witness for fit_validate_spec: equal lengths 3 with n_segments = 1. -/
theorem fit_validate_spec_witness :
    ([some 1, none, some 2] : List (Option ℚ)).length =
      ([some 1, some 1, some 1] : List (Option ℚ)).length ∧
    1 + 1 ≤ ([some 1, none, some 2] : List (Option ℚ)).length ∧
    fit_segmented_regression_validate [some 1, none, some 2] [some 1, some 1, some 1] 1 =
      Except.ok (dropNaN [some 1, none, some 2] [some 1, some 1, some 1]) :=
  ⟨rfl, by decide, (fit_validate_spec [some 1, none, some 2] [some 1, some 1, some 1] 1).2.2
    rfl (by decide)⟩

/-! ## Claim C3 -/

/-- Claim C3 counterexample: on the empty event list the metrics record
omits the by-type count fields entirely, so they are not zero. -/
theorem compute_precursor_metrics_empty_missing_type_counts :
    (compute_precursor_metrics []).lookup "rapid_rise_events" = none ∧
    (compute_precursor_metrics []).lookup "sustained_rise_events" = none := by decide

/-- Claim C3 (amended): for the empty event list compute_precursor_metrics
returns without failing a record in which total_events,
earliest_warning_hours, max_rise_rate and major_events are present and
zero; the by-type counts are absent from the empty-case record. -/
theorem compute_precursor_metrics_empty :
    compute_precursor_metrics [] =
      [("total_events", 0), ("earliest_warning_hours", 0),
       ("max_rise_rate", 0), ("major_events", 0)] ∧
    (compute_precursor_metrics []).lookup "total_events" = some 0 ∧
    (compute_precursor_metrics []).lookup "earliest_warning_hours" = some 0 ∧
    (compute_precursor_metrics []).lookup "max_rise_rate" = some 0 ∧
    (compute_precursor_metrics []).lookup "major_events" = some 0 := by decide

/-! ## Claim C9 -/

/-- Claim C9: with a single segment, predict evaluates the segment line on
every x at most breakpoints[1], and leaves the zero initialization on
every x beyond it: the first mask branch (i = 0) takes precedence over the
last-segment branch, so a one-segment model never extrapolates right of
its upper domain bound. -/
theorem predict_one_segment (r : RegressionResult) (x : List ℚ) (h : r.n_segments = 1) :
    r.predict x = x.map (fun xv =>
      if xv ≤ r.breakpoints.getD 1 0 then r.slopes.getD 0 0 * xv + r.intercepts.getD 0 0
      else 0) := by
  unfold RegressionResult.predict
  rw [h]
  show List.zipWith _ x (x.map (fun _ => (0 : ℚ))) = _
  rw [zipWith_map_right_self]
  apply List.map_congr_left
  intro a _
  simp [segMask]

/-- One-segment model used to witness predict_one_segment. -/
def oneSegModel : RegressionResult :=
  { breakpoints := [0, 10], slopes := [2], intercepts := [1],
    r_squared := 1, rmse := 0, n_segments := 1 }

/-- Witness for predict_one_segment: x = 5 is inside the domain, x = 20 is
beyond breakpoints[1] = 10 and predicts 0. -/
theorem predict_one_segment_witness :
    oneSegModel.n_segments = 1 ∧
    oneSegModel.predict [5, 20] = ([5, 20] : List ℚ).map (fun xv =>
      if xv ≤ oneSegModel.breakpoints.getD 1 0 then
        oneSegModel.slopes.getD 0 0 * xv + oneSegModel.intercepts.getD 0 0
      else 0) ∧
    oneSegModel.predict [5, 20] = [11, 0] :=
  ⟨rfl, predict_one_segment oneSegModel [5, 20] rfl, by decide⟩

/-! ## Claim C8 -/

/-- A perfectly linear hourly ramp of slope k starting at c. -/
def rampSeries (c k : ℚ) (n : ℕ) : List ℚ :=
  (List.range n).map (fun (j : ℕ) => c + k * (j : ℚ))

/-- Claim C8: calculate_rise_rate keeps the hourly grid length, its
leading window_hours points are missing (none, not zero), and on a linear
ramp of hourly slope k every point after warm-up is the constant k * 24. -/
theorem calculate_rise_rate_spec (stage : List ℚ) (w i j : ℕ) (c k : ℚ) (n : ℕ)
    (hw : 0 < w) :
    (calculate_rise_rate stage w).length = stage.length ∧
    (i < w → (calculate_rise_rate stage w).getD i none = none) ∧
    (w ≤ j → j < n → (calculate_rise_rate (rampSeries c k n) w).getD j none =
      some (k * 24)) := by
  refine ⟨by simp [calculate_rise_rate], fun hi => ?_, fun hwj hjn => ?_⟩
  · by_cases hin : i < stage.length
    · rw [calculate_rise_rate, getD_map_range _ _ hin, if_pos hi]
    · rw [calculate_rise_rate, getD_map_range_ge _ _ (by omega)]
  · have hlen : (rampSeries c k n).length = n := by
      rw [rampSeries, List.length_map, List.length_range]
    rw [calculate_rise_rate, hlen, getD_map_range _ _ hjn, if_neg (by omega)]
    have hj : (rampSeries c k n).getD j 0 = c + k * (j : ℚ) := by
      rw [rampSeries]; exact getD_map_range _ _ hjn
    have hjw : (rampSeries c k n).getD (j - w) 0 = c + k * ((j - w : ℕ) : ℚ) := by
      rw [rampSeries]; exact getD_map_range _ _ (by omega)
    rw [hj, hjw]
    have hcast : ((j - w : ℕ) : ℚ) = (j : ℚ) - (w : ℚ) := by
      push_cast [Nat.cast_sub hwj]
      ring
    have hw0 : (w : ℚ) ≠ 0 := Nat.cast_ne_zero.mpr (by omega)
    rw [hcast]
    congr 1
    field_simp
    ring

/-- Witness for calculate_rise_rate_spec at window 1 on a ramp of slope 1. -/
theorem calculate_rise_rate_spec_witness :
    0 < 1 ∧
    ((calculate_rise_rate [0, 1, 2, 3] 1).length = ([0, 1, 2, 3] : List ℚ).length ∧
     (0 < 1 → (calculate_rise_rate [0, 1, 2, 3] 1).getD 0 none = none) ∧
     (1 ≤ 2 → 2 < 4 → (calculate_rise_rate (rampSeries 0 1 4) 1).getD 2 none =
       some (1 * 24))) :=
  ⟨by decide, calculate_rise_rate_spec [0, 1, 2, 3] 1 0 2 0 1 4 (by decide)⟩

/-! ## Claim C7 -/

/-- Claim C7: once the lag is resolved, correlate_stations raises the
insufficient-data ValueError exactly when 9 or fewer aligned pairs remain
after the lag shift and inner join, and otherwise returns a
CorrelationResult whose sample_size is the number of aligned pairs. -/
theorem correlate_stations_min_pairs (B : StatsBackend) (up down : List (Option ℚ))
    (lagOpt : Option ℤ) (auto : Bool) (L : ℤ)
    (hres : resolveLag up down lagOpt auto = Except.ok L) :
    ((alignedPairs up down L).length ≤ 9 →
      correlate_stations B up down lagOpt auto =
        Except.error (CorrError.insufficientData (alignedPairs up down L).length)) ∧
    (10 ≤ (alignedPairs up down L).length →
      (correlate_stations B up down lagOpt auto).map (fun r => r.sample_size) =
        Except.ok (alignedPairs up down L).length) := by
  unfold correlate_stations
  rw [hres]
  dsimp only
  constructor
  · intro h
    rw [if_pos (by omega)]
  · intro h
    rw [if_neg (by omega)]
    rfl

/-- Degenerate statistics back end used only to witness the control flow. -/
def constBackend : StatsBackend :=
  { pearsonr := fun _ => (0, 0), linregress := fun _ => (0, 0, 0) }

/-- Ten aligned points on the common grid. -/
def tenOnes : List (Option ℚ) := List.replicate 10 (some 1)

/-- Witness for correlate_stations_min_pairs: exactly 10 aligned pairs at
an explicit lag of 0 succeed with sample_size 10. -/
theorem correlate_stations_min_pairs_witness :
    resolveLag tenOnes tenOnes (some 0) false = Except.ok 0 ∧
    10 ≤ (alignedPairs tenOnes tenOnes 0).length ∧
    (correlate_stations constBackend tenOnes tenOnes (some 0) false).map
      (fun r => r.sample_size) = Except.ok (alignedPairs tenOnes tenOnes 0).length :=
  ⟨rfl, by decide,
    (correlate_stations_min_pairs constBackend tenOnes tenOnes (some 0) false 0 rfl).2
      (by decide)⟩

/-! ## Claim C4 -/

lemma foldl_argmax_step (f : ℕ → ℚ) (l : List ℕ) (b : ℕ) :
    (l.foldl (fun best i => if f i > f best then i else best) b = b ∨
     l.foldl (fun best i => if f i > f best then i else best) b ∈ l) ∧
    f b ≤ f (l.foldl (fun best i => if f i > f best then i else best) b) ∧
    ∀ i ∈ l, f i ≤ f (l.foldl (fun best i => if f i > f best then i else best) b) := by
  induction l generalizing b with
  | nil => simp
  | cons x t ih =>
    have h := ih (if f x > f b then x else b)
    have hb : f b ≤ f (if f x > f b then x else b) := by
      by_cases hfx : f x > f b
      · rw [if_pos hfx]; exact le_of_lt hfx
      · rw [if_neg hfx]
    have hx : f x ≤ f (if f x > f b then x else b) := by
      by_cases hfx : f x > f b
      · rw [if_pos hfx]
      · rw [if_neg hfx]; exact le_of_not_lt hfx
    refine ⟨?_, ?_, ?_⟩
    · rcases h.1 with h1 | h1
      · by_cases hfx : f x > f b
        · right
          rw [List.foldl_cons, h1, if_pos hfx]
          exact List.mem_cons_self x t
        · left
          rw [List.foldl_cons, h1, if_neg hfx]
      · right
        rw [List.foldl_cons]
        exact List.mem_cons_of_mem x h1
    · rw [List.foldl_cons]
      exact le_trans hb h.2.1
    · intro i hi
      rw [List.foldl_cons]
      rcases List.mem_cons.mp hi with rfl | hi
      · exact le_trans hx h.2.1
      · exact h.2.2 i hi

lemma argmaxFirst_lt (f : ℕ → ℚ) (n : ℕ) (hn : 0 < n) : argmaxFirst f n < n := by
  unfold argmaxFirst
  rcases (foldl_argmax_step f (List.range n) 0).1 with h | h
  · rw [h]; exact hn
  · exact List.mem_range.mp h

lemma argmaxFirst_le (f : ℕ → ℚ) (n i : ℕ) (hi : i < n) : f i ≤ f (argmaxFirst f n) :=
  (foldl_argmax_step f (List.range n) 0).2.2 i (List.mem_range.mpr hi)

/-- Upstream pulse series for the lag counterexample. -/
def lagUp : List (Option ℚ) := [some 0, some 0, some 1, some 0]

/-- Downstream series: lagUp shifted forward by exactly 1 hour. -/
def lagDown : List (Option ℚ) := [some 0, some 0, some 0, some 1]

/-- Claim C4 counterexample: with max_lag_hours = 1 the search radius is
m = 1, offset +1 is inside the claimed symmetric window and carries the
strictly largest cross-correlation (11/16), yet find_optimal_lag returns
-1 because the slice upper bound center + m is exclusive; the true shift
of +1 hour is recovered as -1, off by 2 hours. -/
theorem find_optimal_lag_counterexample :
    find_optimal_lag lagUp lagDown 1 = Except.ok (-1) ∧
    (1 : ℤ) ≤ ((min 1 ((hourlyJoin lagUp lagDown).length / 2) : ℕ) : ℤ) ∧
    ccSame (centeredDown lagUp lagDown) (centeredUp lagUp lagDown) (-1) <
      ccSame (centeredDown lagUp lagDown) (centeredUp lagUp lagDown) 1 := by decide

/-- Claim C4 (amended): every offset find_optimal_lag returns lies in the
half-open window -m .. m-1 (m = min(max_lag_hours, half the joined
length); the symmetric upper offset +m is excluded by the slice bound) and
maximizes the cross-correlation of the mean-centered joined pair over
that window. -/
theorem find_optimal_lag_argmax (up down : List (Option ℚ)) (maxLag : ℕ) (L lag : ℤ)
    (hok : find_optimal_lag up down maxLag = Except.ok L)
    (hlo : -((min maxLag ((hourlyJoin up down).length / 2) : ℕ) : ℤ) ≤ lag)
    (hhi : lag < ((min maxLag ((hourlyJoin up down).length / 2) : ℕ) : ℤ)) :
    -((min maxLag ((hourlyJoin up down).length / 2) : ℕ) : ℤ) ≤ L ∧
    L < ((min maxLag ((hourlyJoin up down).length / 2) : ℕ) : ℤ) ∧
    ccSame (centeredDown up down) (centeredUp up down) lag ≤
      ccSame (centeredDown up down) (centeredUp up down) L := by
  unfold find_optimal_lag at hok
  set m := min maxLag ((hourlyJoin up down).length / 2) with hm
  by_cases h0 : 2 * m = 0
  · rw [if_pos h0] at hok
    exact absurd hok (by simp)
  · rw [if_neg h0] at hok
    injection hok with hL
    have hA : argmaxFirst
        (fun i => ccSame (centeredDown up down) (centeredUp up down) ((i : ℤ) - (m : ℤ)))
        (2 * m) < 2 * m :=
      argmaxFirst_lt _ _ (by omega)
    refine ⟨by omega, by omega, ?_⟩
    have hi : (lag + (m : ℤ)).toNat < 2 * m := by omega
    have hval : ((lag + (m : ℤ)).toNat : ℤ) - (m : ℤ) = lag := by omega
    have key : ccSame (centeredDown up down) (centeredUp up down)
        (((lag + (m : ℤ)).toNat : ℤ) - (m : ℤ)) ≤
      ccSame (centeredDown up down) (centeredUp up down)
        ((argmaxFirst
            (fun i => ccSame (centeredDown up down) (centeredUp up down) ((i : ℤ) - (m : ℤ)))
            (2 * m) : ℤ) - (m : ℤ)) :=
      argmaxFirst_le
        (fun i => ccSame (centeredDown up down) (centeredUp up down) ((i : ℤ) - (m : ℤ)))
        (2 * m) (lag + (m : ℤ)).toNat hi
    rw [hval, hL] at key
    exact key

/-- Witness for find_optimal_lag_argmax on the pulse pair: the returned
offset -1 dominates offset 0 inside the searched window. -/
theorem find_optimal_lag_argmax_witness :
    find_optimal_lag lagUp lagDown 1 = Except.ok (-1) ∧
    -((min 1 ((hourlyJoin lagUp lagDown).length / 2) : ℕ) : ℤ) ≤ 0 ∧
    (0 : ℤ) < ((min 1 ((hourlyJoin lagUp lagDown).length / 2) : ℕ) : ℤ) ∧
    (-((min 1 ((hourlyJoin lagUp lagDown).length / 2) : ℕ) : ℤ) ≤ -1 ∧
     (-1 : ℤ) < ((min 1 ((hourlyJoin lagUp lagDown).length / 2) : ℕ) : ℤ) ∧
     ccSame (centeredDown lagUp lagDown) (centeredUp lagUp lagDown) 0 ≤
       ccSame (centeredDown lagUp lagDown) (centeredUp lagUp lagDown) (-1)) :=
  ⟨by decide, by decide, by decide,
    find_optimal_lag_argmax lagUp lagDown 1 (-1) 0 (by decide) (by decide) (by decide)⟩

/-! ## Max helper lemmas -/

lemma le_foldl_max (l : List ℚ) (b : ℚ) : b ≤ l.foldl max b := by
  induction l generalizing b with
  | nil => exact le_refl b
  | cons x t ih => exact le_trans (le_max_left b x) (ih (max b x))

lemma foldl_max_le_of_mem {x : ℚ} {l : List ℚ} (hx : x ∈ l) (b : ℚ) :
    x ≤ l.foldl max b := by
  induction l generalizing b with
  | nil => cases hx
  | cons y t ih =>
    rcases List.mem_cons.mp hx with rfl | hx
    · exact le_trans (le_max_right b x) (le_foldl_max t (max b x))
    · exact ih hx (max b y)

lemma pyMax_le_of_mem {x : ℚ} {l : List ℚ} (hx : x ∈ l) (d : ℚ) : x ≤ pyMax l d := by
  cases l with
  | nil => cases hx
  | cons h t =>
    rcases List.mem_cons.mp hx with rfl | hx
    · exact le_foldl_max t x
    · exact foldl_max_le_of_mem hx h

lemma pyMaxOpt_le_of_mem {x : ℚ} {l : List (Option ℚ)} (hx : some x ∈ l) :
    x ≤ pyMaxOpt l :=
  pyMax_le_of_mem (List.mem_filterMap.mpr ⟨some x, hx, rfl⟩) 0

lemma pyMax_append_singleton (h u d : ℚ) (t : List ℚ) :
    pyMax ((h :: t) ++ [u]) d = max (pyMax (h :: t) d) u := by
  show (t ++ [u]).foldl max h = max (t.foldl max h) u
  rw [List.foldl_append]
  rfl

lemma pyMaxOpt_append_none (A : List (Option ℚ)) :
    pyMaxOpt (A ++ [none]) = pyMaxOpt A := by
  unfold pyMaxOpt
  rw [List.filterMap_append]
  simp

lemma pyMaxOpt_append_some {A : List (Option ℚ)} {u x : ℚ}
    (hx : some x ∈ A) (hux : u ≤ x) :
    pyMaxOpt (A ++ [some u]) = pyMaxOpt A := by
  have hxA : x ∈ A.filterMap id := List.mem_filterMap.mpr ⟨some x, hx, rfl⟩
  unfold pyMaxOpt
  rw [List.filterMap_append]
  have h1 : List.filterMap id [some u] = [u] := rfl
  rw [h1]
  cases hA : A.filterMap id with
  | nil => rw [hA] at hxA; cases hxA
  | cons h t =>
    rw [pyMax_append_singleton]
    rw [hA] at hxA
    exact max_eq_left (le_trans hux (pyMax_le_of_mem hxA 0))

/-! ## Threshold mask lemmas (shared by both detectors) -/

lemma optMask_getD_true {l : List (Option ℚ)} {thr : ℚ} {j : ℕ}
    (h : (l.map (fun r =>
      match r with
      | none => false
      | some v => decide (v > thr))).getD j false = true) :
    ∃ v, l.getD j none = some v ∧ thr < v := by
  by_cases hj : j < l.length
  · rw [List.getD_eq_getElem _ _ (by simpa using hj), List.getElem_map] at h
    rw [List.getD_eq_getElem _ _ hj]
    cases hv : l[j] with
    | none => rw [hv] at h; cases h
    | some v =>
      rw [hv] at h
      exact ⟨v, rfl, by simpa using h⟩
  · rw [List.getD_eq_default _ _ (by simpa using Nat.le_of_not_lt hj)] at h
    cases h

lemma optMask_getD_false {l : List (Option ℚ)} {thr : ℚ} {j : ℕ}
    (hj : j < l.length)
    (h : (l.map (fun r =>
      match r with
      | none => false
      | some v => decide (v > thr))).getD j false = false) :
    l.getD j none = none ∨ ∃ u, l.getD j none = some u ∧ u ≤ thr := by
  rw [List.getD_eq_getElem _ _ (by simpa using hj), List.getElem_map] at h
  rw [List.getD_eq_getElem _ _ hj]
  cases hv : l[j] with
  | none => exact Or.inl rfl
  | some u =>
    rw [hv] at h
    exact Or.inr ⟨u, rfl, by simpa using h⟩

/-! ## Rapid-rise loop invariant -/

lemma rapidLoopGo_sound (rate : List (Option ℚ)) (thr : ℚ) (minDur : ℕ)
    (bs : List Bool) :
    ∀ (i : ℕ) (st : Option ℕ),
      (rapidMask rate thr).drop i = bs →
      (st = none → (i = 0 ∨ (rapidMask rate thr).getD (i - 1) false = false)) →
      (∀ s, st = some s →
        s < i ∧ (∀ j, s ≤ j → j < i → (rapidMask rate thr).getD j false = true) ∧
        (s = 0 ∨ (rapidMask rate thr).getD (s - 1) false = false)) →
      ∀ e ∈ rapidLoopGo rate thr minDur bs i st,
        ∃ s t, e = mkRapidEvent rate s t ∧ s < t ∧
          t < (rapidMask rate thr).length ∧
          (rapidMask rate thr).getD t false = false ∧
          (∀ j, s ≤ j → j < t → (rapidMask rate thr).getD j false = true) ∧
          (s = 0 ∨ (rapidMask rate thr).getD (s - 1) false = false) ∧
          minDur ≤ t - s := by
  induction bs with
  | nil =>
    intro i st _ _ _ e he
    cases st with
    | none => simp [rapidLoopGo] at he
    | some s => simp [rapidLoopGo] at he
  | cons b rest ih =>
    intro i st hdrop hnone hsome e he
    have hilen : i < (rapidMask rate thr).length := by
      by_contra hc
      rw [List.drop_eq_nil_of_le (Nat.le_of_not_lt hc)] at hdrop
      exact List.noConfusion hdrop
    have hdec := List.drop_eq_getElem_cons (l := rapidMask rate thr) hilen
    have hcons := hdrop.symm.trans hdec
    injection hcons with hb hrest
    have hgd : (rapidMask rate thr).getD i false = b := by
      rw [List.getD_eq_getElem _ _ hilen, ← hb]
    cases b with
    | true =>
      cases st with
      | none =>
        simp only [rapidLoopGo] at he
        refine ih (i + 1) (some i) hrest.symm (fun h => Option.noConfusion h) ?_ e he
        intro s hs
        injection hs with hsi
        subst hsi
        refine ⟨Nat.lt_succ_self i, fun j hj1 hj2 => ?_, hnone rfl⟩
        have : j = i := by omega
        subst this
        exact hgd
      | some s =>
        simp only [rapidLoopGo] at he
        obtain ⟨hsi, hrun, hmax⟩ := hsome s rfl
        refine ih (i + 1) (some s) hrest.symm (fun h => Option.noConfusion h) ?_ e he
        intro s' hs'
        injection hs' with hss
        subst hss
        refine ⟨by omega, fun j hj1 hj2 => ?_, hmax⟩
        by_cases hji : j = i
        · subst hji; exact hgd
        · exact hrun j hj1 (by omega)
    | false =>
      cases st with
      | none =>
        simp only [rapidLoopGo] at he
        refine ih (i + 1) none hrest.symm
          (fun _ => Or.inr (by simpa using hgd)) (fun s hs => Option.noConfusion hs) e he
      | some s =>
        simp only [rapidLoopGo] at he
        obtain ⟨hsi, hrun, hmax⟩ := hsome s rfl
        by_cases hdur : minDur ≤ i - s
        · rw [if_pos hdur] at he
          rcases List.mem_cons.mp he with rfl | htail
          · exact ⟨s, i, rfl, hsi, hilen, hgd, hrun, hmax, hdur⟩
          · exact ih (i + 1) none hrest.symm
              (fun _ => Or.inr (by simpa using hgd)) (fun s' hs' => Option.noConfusion hs')
              e htail
        · rw [if_neg hdur] at he
          exact ih (i + 1) none hrest.symm
            (fun _ => Or.inr (by simpa using hgd)) (fun s' hs' => Option.noConfusion hs')
            e he

/-! ## Indexing helper lemmas -/

lemma getD_drop_add {α : Type} (l : List α) (m n : ℕ) (d : α) :
    (l.drop m).getD n d = l.getD (m + n) d := by
  by_cases h : m + n < l.length
  · rw [List.getD_eq_getElem _ _ (by rw [List.length_drop]; omega),
      List.getD_eq_getElem _ _ h]
    simp
  · rw [List.getD_eq_default _ _ (by rw [List.length_drop]; omega),
      List.getD_eq_default _ _ (by omega)]

lemma getD_take_lt {α : Type} (l : List α) (n i : ℕ) (hi : i < n) (d : α) :
    (l.take n).getD i d = l.getD i d := by
  by_cases h : i < l.length
  · rw [List.getD_eq_getElem _ _ (by rw [List.length_take]; omega),
      List.getD_eq_getElem _ _ h]
    simp
  · rw [List.getD_eq_default _ _ (by rw [List.length_take]; omega),
      List.getD_eq_default _ _ (by omega)]

lemma take_succ_getD {α : Type} (l : List α) (n : ℕ) (hn : n < l.length) (d : α) :
    l.take (n + 1) = l.take n ++ [l.getD n d] := by
  rw [List.take_succ]
  congr 1
  rw [List.getElem?_eq_getElem hn, List.getD_eq_getElem _ _ hn]
  rfl

lemma mem_of_getD_zero {α : Type} {l : List α} {d x : α}
    (h0 : 0 < l.length) (hx : l.getD 0 d = x) : x ∈ l := by
  cases l with
  | nil => simp at h0
  | cons a t =>
    rw [List.getD_cons_zero] at hx
    rw [← hx]
    exact List.mem_cons_self a t

lemma rapidMask_length (rate : List (Option ℚ)) (thr : ℚ) :
    (rapidMask rate thr).length = rate.length := by
  unfold rapidMask
  exact List.length_map rate _

/-- The inclusive pandas label slice max over s .. t equals the maximum
over the run s .. t-1 alone, because the closing sample at t is NaN or
below threshold while the run start s strictly exceeds it. -/
lemma sliceMaxQ_eq_run_max (rate : List (Option ℚ)) (thr : ℚ) (s t : ℕ)
    (hst : s < t) (ht : t < rate.length)
    (hs_true : (rapidMask rate thr).getD s false = true)
    (ht_false : (rapidMask rate thr).getD t false = false) :
    sliceMaxQ rate s t = pyMaxOpt ((rate.drop s).take (t - s)) := by
  have hslen : s < rate.length := lt_trans hst ht
  unfold rapidMask at hs_true ht_false
  obtain ⟨v, hv, hvthr⟩ := optMask_getD_true hs_true
  have hdroplen : t - s < (rate.drop s).length := by
    rw [List.length_drop]; omega
  have hidx : s + (t - s) = t := by omega
  have hsplit : (rate.drop s).take (t - s + 1) =
      (rate.drop s).take (t - s) ++ [rate.getD t none] := by
    rw [take_succ_getD _ _ hdroplen none, getD_drop_add, hidx]
  have hvmem : some v ∈ (rate.drop s).take (t - s) := by
    apply mem_of_getD_zero (d := none)
    · simp only [List.length_take, List.length_drop]
      omega
    · rw [getD_take_lt _ _ _ (by omega), getD_drop_add, Nat.add_zero]
      exact hv
  unfold sliceMaxQ
  rw [hsplit]
  rcases optMask_getD_false ht ht_false with h | ⟨u, hu, huthr⟩
  · rw [h]
    exact pyMaxOpt_append_none _
  · rw [hu]
    exact pyMaxOpt_append_some hvmem (le_of_lt (lt_of_le_of_lt huthr hvthr))

/-! ## Claim C5 -/

/-- Claim C5: every event detect_rapid_rise emits corresponds to a maximal
above-threshold run s .. t-1 closed by a below-threshold (or NaN) sample
at index t inside the series, whose duration t - s reaches
min_duration_hours, and whose magnitude is the maximum rate observed
within the run; a run still above threshold at the final sample has no
closing sample and is never emitted. -/
theorem detect_rapid_rise_closed_runs (stage : List ℚ) (thr : ℚ) (minDur : ℕ)
    (e : PrecursorEvent) (he : e ∈ detect_rapid_rise stage thr minDur) :
    ∃ (s t : ℕ),
      e.detected_at = (s : ℤ) ∧ s < t ∧
      t < (rapidMask (calculate_rise_rate stage 6) thr).length ∧
      (rapidMask (calculate_rise_rate stage 6) thr).getD t false = false ∧
      (∀ j, s ≤ j → j < t →
        (rapidMask (calculate_rise_rate stage 6) thr).getD j false = true) ∧
      (s = 0 ∨ (rapidMask (calculate_rise_rate stage 6) thr).getD (s - 1) false = false) ∧
      minDur ≤ t - s ∧
      e.value = pyMaxOpt (((calculate_rise_rate stage 6).drop s).take (t - s)) := by
  unfold detect_rapid_rise at he
  obtain ⟨s, t, hemk, hst, htl, htf, hrun, hmax, hdur⟩ :=
    rapidLoopGo_sound (calculate_rise_rate stage 6) thr minDur
      (rapidMask (calculate_rise_rate stage 6) thr) 0 none (List.drop_zero _)
      (fun _ => Or.inl rfl) (fun s hs => Option.noConfusion hs) e he
  refine ⟨s, t, by rw [hemk]; rfl, hst, htl, htf, hrun, hmax, hdur, ?_⟩
  rw [hemk]
  show sliceMaxQ (calculate_rise_rate stage 6) s t = _
  exact sliceMaxQ_eq_run_max _ thr s t hst
    (by rw [rapidMask_length] at htl; exact htl) (hrun s le_rfl hst) htf

/-- Hourly stage series with one 3-hour rapid-rise run closed at hour 9. -/
def rrStage : List ℚ := [0, 0, 0, 0, 0, 0, 1, 1, 1, 0, 0, 0]

/-- The single event detect_rapid_rise emits on rrStage at threshold 1. -/
def rrEvent : PrecursorEvent :=
  { precursor_type := "rapid_rise", detected_at := 6, value := 4,
    severity := "major", hours_before_peak := 0 }

/-- Witness for detect_rapid_rise_closed_runs on the concrete run. -/
theorem detect_rapid_rise_closed_runs_witness :
    rrEvent ∈ detect_rapid_rise rrStage 1 3 ∧
    (∃ (s t : ℕ),
      rrEvent.detected_at = (s : ℤ) ∧ s < t ∧
      t < (rapidMask (calculate_rise_rate rrStage 6) 1).length ∧
      (rapidMask (calculate_rise_rate rrStage 6) 1).getD t false = false ∧
      (∀ j, s ≤ j → j < t →
        (rapidMask (calculate_rise_rate rrStage 6) 1).getD j false = true) ∧
      (s = 0 ∨ (rapidMask (calculate_rise_rate rrStage 6) 1).getD (s - 1) false = false) ∧
      3 ≤ t - s ∧
      rrEvent.value = pyMaxOpt (((calculate_rise_rate rrStage 6).drop s).take (t - s))) :=
  ⟨by decide, detect_rapid_rise_closed_runs rrStage 1 3 rrEvent (by decide)⟩

/-! ## Claim C10 -/

/-- Claim C10: every rapid-rise event magnitude strictly exceeds
threshold_ft_per_day (it is the maximum over a run whose first sample
already exceeds it), and every sustained-rise event value strictly
exceeds threshold_ft (its trigger day has the exceedance flag set). -/
theorem precursor_event_values_exceed_thresholds :
    (∀ (stage : List ℚ) (thr : ℚ) (minDur : ℕ) (e : PrecursorEvent),
        e ∈ detect_rapid_rise stage thr minDur → thr < e.value) ∧
    (∀ (sd : List ℚ) (thr : ℚ) (w : ℕ) (e : PrecursorEvent),
        e ∈ detect_sustained_rise sd thr w → thr < e.value) := by
  constructor
  · intro stage thr minDur e he
    unfold detect_rapid_rise at he
    obtain ⟨s, t, hemk, hst, htl, htf, hrun, hmax, hdur⟩ :=
      rapidLoopGo_sound (calculate_rise_rate stage 6) thr minDur
        (rapidMask (calculate_rise_rate stage 6) thr) 0 none (List.drop_zero _)
        (fun _ => Or.inl rfl) (fun s hs => Option.noConfusion hs) e he
    have hs_true := hrun s le_rfl hst
    unfold rapidMask at hs_true
    obtain ⟨v, hv, hvthr⟩ := optMask_getD_true hs_true
    have hslen : s < (calculate_rise_rate stage 6).length := by
      rw [rapidMask_length] at htl; omega
    have hvmem : some v ∈ ((calculate_rise_rate stage 6).drop s).take (t - s + 1) := by
      apply mem_of_getD_zero (d := none)
      · simp only [List.length_take, List.length_drop]
        omega
      · rw [getD_take_lt _ _ _ (by omega), getD_drop_add, Nat.add_zero]
        exact hv
    have hvle : v ≤ sliceMaxQ (calculate_rise_rate stage 6) s t :=
      pyMaxOpt_le_of_mem hvmem
    rw [hemk]
    show thr < sliceMaxQ (calculate_rise_rate stage 6) s t
    exact lt_of_lt_of_le hvthr hvle
  · intro sd thr w e he
    unfold detect_sustained_rise at he
    obtain ⟨d, hd, hde⟩ := List.mem_map.mp he
    have hdmem := List.mem_filter.mp hd
    have hdn : d < sd.length := List.mem_range.mp hdmem.1
    have hflagslen : (sustainedFlags sd thr w).length = sd.length := by
      unfold sustainedFlags totalRise
      simp
    have hstart : (startedFlags (sustainedFlags sd thr w)).getD d false = true := by
      simpa using hdmem.2
    have hflag : (sustainedFlags sd thr w).getD d false = true := by
      unfold startedFlags at hstart
      rw [getD_map_range _ _ (by rw [hflagslen]; exact hdn)] at hstart
      rw [Bool.and_eq_true] at hstart
      exact hstart.1
    unfold sustainedFlags at hflag
    obtain ⟨rv, hrv, hrvthr⟩ := optMask_getD_true hflag
    rw [← hde]
    show thr < ((totalRise sd w).getD d none).getD 0
    rw [hrv]
    exact hrvthr

/-- One trigger day of detect_sustained_rise on the two-pulse daily series. -/
def susEvent : PrecursorEvent :=
  { precursor_type := "sustained_rise", detected_at := 1, value := 5,
    severity := "moderate", hours_before_peak := 0 }

/-- Witness for precursor_event_values_exceed_thresholds on both detectors. -/
theorem precursor_event_values_exceed_thresholds_witness :
    rrEvent ∈ detect_rapid_rise rrStage 1 3 ∧ (1 : ℚ) < rrEvent.value ∧
    susEvent ∈ detect_sustained_rise [0, 5, 5, 0, 0] 1 2 ∧ (1 : ℚ) < susEvent.value :=
  ⟨by decide,
   precursor_event_values_exceed_thresholds.1 rrStage 1 3 rrEvent (by decide),
   by decide,
   precursor_event_values_exceed_thresholds.2 [0, 5, 5, 0, 0] 1 2 susEvent (by decide)⟩

/-! ## Claim C6 -/

lemma countP_range_eq_one (n a : ℕ) (ha : a < n) :
    (List.range n).countP (fun d => d == a) = 1 := by
  induction n with
  | zero => omega
  | succ n ih =>
    rw [List.range_succ, List.countP_append]
    by_cases h : a < n
    · rw [ih h]
      have h1 : List.countP (fun d => d == a) [n] = 0 := by
        simp
        omega
      rw [h1]
    · have ha' : a = n := by omega
      subst ha'
      have h0 : (List.range a).countP (fun d => d == a) = 0 := by
        rw [List.countP_eq_zero]
        intro d hd
        have := List.mem_range.mp hd
        simp
        omega
      rw [h0]
      simp

lemma sustainedFlags_length (s : List ℚ) (thr : ℚ) (w : ℕ) :
    (sustainedFlags s thr w).length = s.length := by
  unfold sustainedFlags totalRise
  simp

/-- Claim C6: detect_sustained_rise triggers exactly on rising edges (a
day whose exceedance flag is true while the prior day's is false, the
first day having a false predecessor), and any left-maximal all-true run
a .. b receives exactly one event, dated at its first day a. -/
theorem detect_sustained_rise_rising_edge (s : List ℚ) (thr : ℚ) (w : ℕ) (a b : ℕ)
    (hab : a ≤ b) (hb : b < s.length)
    (hrun : ∀ j, a ≤ j → j ≤ b → (sustainedFlags s thr w).getD j false = true)
    (hstart : a = 0 ∨ (sustainedFlags s thr w).getD (a - 1) false = false) :
    (detect_sustained_rise s thr w).map (fun e => e.detected_at) =
      ((List.range s.length).filter (fun d =>
        (sustainedFlags s thr w).getD d false &&
        !(decide (0 < d) && (sustainedFlags s thr w).getD (d - 1) false))).map
        (fun (d : ℕ) => (d : ℤ)) ∧
    (detect_sustained_rise s thr w).countP
      (fun e => decide ((a : ℤ) ≤ e.detected_at) && decide (e.detected_at ≤ (b : ℤ))) = 1 := by
  have hflagslen := sustainedFlags_length s thr w
  have hfilter_eq : (List.range s.length).filter
      (fun i => (startedFlags (sustainedFlags s thr w)).getD i false) =
      (List.range s.length).filter (fun d =>
        (sustainedFlags s thr w).getD d false &&
        !(decide (0 < d) && (sustainedFlags s thr w).getD (d - 1) false)) := by
    apply List.filter_congr
    intro d hd
    have hdn : d < s.length := List.mem_range.mp hd
    unfold startedFlags
    rw [getD_map_range _ _ (by rw [hflagslen]; exact hdn)]
    by_cases h0 : d = 0
    · subst h0
      simp
    · have hpos : decide (0 < d) = true := decide_eq_true (Nat.pos_of_ne_zero h0)
      rw [if_neg h0, hpos, Bool.true_and]
  constructor
  · unfold detect_sustained_rise
    rw [hfilter_eq, List.map_map]
    rfl
  · unfold detect_sustained_rise
    rw [hfilter_eq, List.countP_map, List.countP_filter]
    have hcongr : ∀ d ∈ List.range s.length,
        (((fun e => decide ((a : ℤ) ≤ e.detected_at) && decide (e.detected_at ≤ (b : ℤ))) ∘
            mkSustainedEvent (totalRise s w)) d &&
          ((sustainedFlags s thr w).getD d false &&
            !(decide (0 < d) && (sustainedFlags s thr w).getD (d - 1) false))) = true ↔
        (d == a) = true := by
      intro d hd
      have hdn : d < s.length := List.mem_range.mp hd
      simp only [Function.comp_apply, mkSustainedEvent]
      by_cases hda : d = a
      · subst hda
        have h1 : decide ((d : ℤ) ≤ (d : ℤ)) = true := decide_eq_true le_rfl
        have h2 : decide ((d : ℤ) ≤ (b : ℤ)) = true :=
          decide_eq_true (by exact_mod_cast hab)
        have h3 : (sustainedFlags s thr w).getD d false = true := hrun d le_rfl hab
        have h4 : (!(decide (0 < d) && (sustainedFlags s thr w).getD (d - 1) false)) = true := by
          by_cases h0 : d = 0
          · subst h0
            simp
          · rcases hstart with h | h
            · exact absurd h h0
            · rw [h]
              simp
        rw [h1, h2, h3, h4]
        simp
      · constructor
        · intro hcontra
          exfalso
          simp only [Bool.and_eq_true, decide_eq_true_eq] at hcontra
          obtain ⟨⟨had, hdb⟩, hflag, hedge⟩ := hcontra
          have had' : a ≤ d := by exact_mod_cast had
          have hdb' : d ≤ b := by exact_mod_cast hdb
          have hlt : a < d := by omega
          have hprev : (sustainedFlags s thr w).getD (d - 1) false = true :=
            hrun (d - 1) (by omega) (by omega)
          have hpos : decide (0 < d) = true := decide_eq_true (by omega)
          rw [hpos, hprev] at hedge
          simp at hedge
        · intro hcontra
          exfalso
          exact hda (by simpa using hcontra)
    rw [List.countP_congr hcongr]
    exact countP_range_eq_one s.length a (by omega)

/-- Witness for detect_sustained_rise_rising_edge: the run consisting of
day 1 alone on the two-pulse daily series receives exactly one event. -/
theorem detect_sustained_rise_rising_edge_witness :
    (1 : ℕ) ≤ 1 ∧ 1 < ([0, 5, 5, 0, 0] : List ℚ).length ∧
    (∀ j, 1 ≤ j → j ≤ 1 → (sustainedFlags [0, 5, 5, 0, 0] 1 2).getD j false = true) ∧
    ((1 : ℕ) = 0 ∨ (sustainedFlags [0, 5, 5, 0, 0] 1 2).getD 0 false = false) ∧
    ((detect_sustained_rise [0, 5, 5, 0, 0] 1 2).map (fun e => e.detected_at) =
      ((List.range ([0, 5, 5, 0, 0] : List ℚ).length).filter (fun d =>
        (sustainedFlags [0, 5, 5, 0, 0] 1 2).getD d false &&
        !(decide (0 < d) && (sustainedFlags [0, 5, 5, 0, 0] 1 2).getD (d - 1) false))).map
        (fun (d : ℕ) => (d : ℤ)) ∧
     (detect_sustained_rise [0, 5, 5, 0, 0] 1 2).countP
       (fun e => decide ((1 : ℤ) ≤ e.detected_at) && decide (e.detected_at ≤ (1 : ℤ))) = 1) := by
  have hrun : ∀ j, 1 ≤ j → j ≤ 1 →
      (sustainedFlags [0, 5, 5, 0, 0] 1 2).getD j false = true := by
    intro j h1 h2
    have hj : j = 1 := le_antisymm h2 h1
    subst hj
    decide
  exact ⟨le_rfl, by decide, hrun, Or.inr (by decide),
    detect_sustained_rise_rising_edge [0, 5, 5, 0, 0] 1 2 1 1 le_rfl (by decide) hrun
      (Or.inr (by decide))⟩
